import Mathlib

/-!
Shallow embedding of the unitycatalog-ai marshaling core: the docstring
state-machine parser, the type/value utility layer (tool names, full
function names, interval encoding, base64 validation, struct-schema
naming), and the Databricks SQL statement builder and execution-result
decoder.  Definitions are translated directly from the Python source;
external library calls (hashlib md5, base64, json.dumps, pandas csv)
are embedded as executable Lean functions.
-/

namespace UCAI

/-! ## Basic character/string helpers shared by the embeddings. -/

/-- Python `str.lstrip()` on a line, modelled over the character list. -/
def lstripChars (l : List Char) : List Char := l.dropWhile Char.isWhitespace

/-- Python `str.rstrip()` on a line, modelled over the character list. -/
def rstripChars (l : List Char) : List Char := (l.reverse.dropWhile Char.isWhitespace).reverse

/-- Python `str.strip()` on a line, modelled over the character list. -/
def stripChars (l : List Char) : List Char := rstripChars (lstripChars l)

/-- Python `" ".join(xs)` over accumulated line fragments. -/
def joinSpaceChars : List (List Char) → List Char
  | [] => []
  | l :: rest => rest.foldl (fun acc x => acc ++ ' ' :: x) l

/-- Split a character list at newline characters, as Python
`str.splitlines()` does for texts whose line breaks are plain newlines. -/
def splitLinesChars : List Char → List (List Char)
  | [] => [[]]
  | c :: rest =>
    if c = '\n' then [] :: splitLinesChars rest
    else
      match splitLinesChars rest with
      | [] => [[c]]
      | s :: ss => (c :: s) :: ss

/-- Whether the segment `pat` occurs contiguously inside `l`. -/
def segOccursIn (pat l : List Char) : Bool :=
  ((List.range (l.length + 1)).filter (fun i => decide ((l.drop i).take pat.length = pat))) ≠ []

/-- Substring containment on strings, used to state "error contains ...". -/
def strContains (s pat : String) : Bool := segOccursIn pat.data s.data

/-! ## `get_tool_name` (utils.py lines 62-82). -/

/-- Translation of `get_tool_name`: Python `func_name[-64:]` keeps the last
64 characters when the name is longer than 64 characters. -/
def get_tool_name (func_name : String) : String :=
  if func_name.length > 64 then
    String.mk (func_name.data.drop (func_name.data.length - 64))
  else func_name

/-! ## `validate_full_function_name` (utils.py lines 270-285). -/

/-- Python `str.split(".")`: split at every dot, keeping empty segments. -/
def splitDot : List Char → List (List Char)
  | [] => [[]]
  | c :: rest =>
    if c = '.' then [] :: splitDot rest
    else
      match splitDot rest with
      | [] => [[c]]
      | s :: ss => (c :: s) :: ss

structure FullFunctionName where
  catalog_name : String
  schema_name : String
  function_name : String
deriving Repr, DecidableEq

/-- Translation of `validate_full_function_name`: the input must split on
dots into exactly three segments, which become the catalog, schema and
function names. -/
def validate_full_function_name (function_name : String) : Except String FullFunctionName :=
  match splitDot function_name.data with
  | [a, b, c] =>
    .ok { catalog_name := String.mk a, schema_name := String.mk b, function_name := String.mk c }
  | _ =>
    .error ("Invalid function name: " ++ function_name ++
      ", expecting format <catalog_name>.<schema_name>.<function_name>.")

theorem splitDot_ne_nil (l : List Char) : splitDot l ≠ [] := by
  induction l with
  | nil => simp [splitDot]
  | cons c rest ih =>
    simp only [splitDot]
    by_cases h : c = '.'
    · simp [h]
    · simp only [if_neg h]
      cases hs : splitDot rest with
      | nil => simp
      | cons s ss => simp

theorem length_splitDot (l : List Char) :
    (splitDot l).length = l.count '.' + 1 := by
  induction l with
  | nil => simp [splitDot]
  | cons c rest ih =>
    simp only [splitDot]
    by_cases h : c = '.'
    · subst h
      simp [List.count_cons, ih]
    · simp only [if_neg h]
      cases hs : splitDot rest with
      | nil => exact absurd hs (splitDot_ne_nil rest)
      | cons s ss =>
        rw [hs] at ih
        simp only [List.length_cons] at ih ⊢
        have hc : rest.count '.' = ss.length := by omega
        simp [List.count_cons, h, hc]

/-! ## The docstring parser (docstring_utils.py), a line-by-line
state machine with states DESCRIPTION, ARGS, RETURNS, END. -/

inductive PState where
  | DESCRIPTION
  | ARGS
  | RETURNS
  | END
deriving Repr, DecidableEq

/-- The mutable locals of `parse_docstring`'s loop, bundled as a state
record.  Parameter names and description fragments are kept as character
lists, mirroring the Python string values. -/
structure ParseSt where
  state : PState
  descriptionLines : List (List Char)
  parsedParams : List (List Char × List Char)
  returns : Option (List Char)
  currentParam : Option (List Char)
  paramDescLines : List (List Char)
  returnDescLines : List (List Char)
  paramIndent : Option Nat
  returnIndent : Option Nat
deriving Repr, DecidableEq

/-- Python dict assignment `d[k] = v`: overwrite in place if the key is
present, otherwise append preserving insertion order. -/
def dictSet (d : List (List Char × List Char)) (k v : List Char) :
    List (List Char × List Char) :=
  if d.any (fun p => p.1 = k) then
    d.map (fun p => if p.1 = k then (k, v) else p)
  else d ++ [(k, v)]

/-- Python truthiness of `current_param` (non-None and non-empty). -/
def optTruthy : Option (List Char) → Bool
  | some l => l ≠ []
  | none => false

/-- The `if current_param and param_description_lines:` flush block that
closes out the current parameter, storing its space-joined description
only when the stripped join is non-empty. -/
def flushParam (st : ParseSt) : ParseSt :=
  if optTruthy st.currentParam ∧ st.paramDescLines ≠ [] then
    let description := stripChars (joinSpaceChars st.paramDescLines)
    let pp :=
      if description ≠ [] then
        dictSet st.parsedParams (st.currentParam.getD []) description
      else st.parsedParams
    { st with parsedParams := pp, currentParam := none, paramDescLines := [] }
  else st

/-- The `if state == RETURNS and return_description_lines:` flush block,
which stores the space-joined return description. -/
def flushReturns (st : ParseSt) : ParseSt :=
  if st.returnDescLines ≠ [] then
    { st with returns := some (stripChars (joinSpaceChars st.returnDescLines)) }
  else st

/-- One iteration of `parse_docstring`'s `for line in lines` loop,
translated branch by branch from the source. -/
def processLine (st : ParseSt) (line : List Char) : ParseSt :=
  if stripChars line = [] then
    -- blank line: close out the open parameter / return accumulation
    if st.state = PState.ARGS then flushParam st
    else if st.state = PState.RETURNS then flushReturns st
    else st
  else
    let sl := lstripChars line
    let indent := line.length - sl.length
    match st.state with
    | PState.DESCRIPTION =>
      if sl = "Args:".data ∨ sl = "Arguments:".data then
        { st with state := .ARGS, paramIndent := none }
      else if sl = "Returns:".data then
        { st with state := .RETURNS, returnIndent := none }
      else
        { st with descriptionLines := st.descriptionLines ++ [sl] }
    | PState.ARGS =>
      if sl = "Returns:".data then
        { flushParam st with state := .RETURNS }
      else
        let st := if st.paramIndent = none then { st with paramIndent := some indent } else st
        let b := st.paramIndent.getD 0
        if indent < b then
          -- end of Args section: flush, then reprocess this line's header role
          let st := flushParam { st with state := .END }
          if sl = "Args:".data ∨ sl = "Arguments:".data then
            { st with state := .ARGS, paramIndent := none }
          else if sl = "Returns:".data then
            { st with state := .RETURNS, returnIndent := none }
          else
            { st with state := .END }
        else
          if sl.any (fun c => c = ':') then
            let param_part := stripChars (sl.takeWhile (fun c => c ≠ ':'))
            let desc_part := stripChars ((sl.dropWhile (fun c => c ≠ ':')).drop 1)
            let param_name :=
              if param_part.any (fun c => c = '(') ∧ param_part.getLast? = some ')' then
                stripChars (param_part.takeWhile (fun c => c ≠ '('))
              else param_part
            if indent = b then
              let st := flushParam st
              { st with currentParam := some param_name,
                        paramDescLines := if desc_part ≠ [] then [desc_part] else [] }
            else
              if optTruthy st.currentParam then
                { st with paramDescLines := st.paramDescLines ++ [sl] }
              else st
          else
            if optTruthy st.currentParam then
              { st with paramDescLines := st.paramDescLines ++ [sl] }
            else st
    | PState.RETURNS =>
      let st := if st.returnIndent = none then { st with returnIndent := some indent } else st
      let b := st.returnIndent.getD 0
      if indent < b then
        let st := flushReturns { st with state := .END }
        if sl = "Args:".data ∨ sl = "Arguments:".data then
          { st with state := .ARGS, paramIndent := none }
        else if sl = "Returns:".data then
          { st with state := .RETURNS, returnIndent := none }
        else
          { st with state := .END }
      else
        { st with returnDescLines := st.returnDescLines ++ [sl] }
    | PState.END => st

/-- `DocstringInfo` dataclass. -/
structure DocstringInfo where
  description : String
  params : List (String × String)
  returns : Option String
deriving Repr, DecidableEq

def initParseSt : ParseSt :=
  { state := .DESCRIPTION, descriptionLines := [], parsedParams := [], returns := none,
    currentParam := none, paramDescLines := [], returnDescLines := [],
    paramIndent := none, returnIndent := none }

/-- The machine state after the whole line loop and the two final
flushes of `parse_docstring`. -/
def finalState (docstring : String) : ParseSt :=
  let lines := splitLinesChars (stripChars docstring.data) ++ [[]]
  let st := lines.foldl processLine initParseSt
  let st := if st.state = PState.ARGS then flushParam st else st
  if st.state = PState.RETURNS then flushReturns st else st

/-- Translation of `parse_docstring`: strip, split into lines, append a
blank sentinel line, run the state machine, apply the final flushes, and
fail when the input or the accumulated description is empty. -/
def parse_docstring (docstring : String) : Except String DocstringInfo :=
  if stripChars docstring.data = [] then
    .error "Docstring is empty. Please provide a docstring with a function description."
  else
    let st := finalState docstring
    let description := stripChars (joinSpaceChars st.descriptionLines)
    if description = [] then
      .error "Function description is missing in the docstring. Please provide a function description."
    else
      .ok { description := String.mk description,
            params := st.parsedParams.map (fun p => (String.mk p.1, String.mk p.2)),
            returns := st.returns.map String.mk }

/-! ## Python values and per-type structural validation
(utils.py `is_time_type`, `validate_param`, `is_base64_encoded`). -/

/-- Native Python values a caller can pass as a function argument, with
just enough structure for the `isinstance` dispatch in the source.  A
`timedelta` carries Python's normalized fields (`days` may be negative,
`seconds < 86400`, `microseconds < 1000000`). -/
inductive PyVal where
  | PStr (s : String)
  | PInt (n : Int)
  | PFloat (s : String)
  | PBool (b : Bool)
  | PTimedelta (days : Int) (seconds : Nat) (microseconds : Nat)
  | PDecimal (s : String)
  | PDate (iso : String)
  | PDatetime (iso : String)
  | PList (xs : List PyVal)
  | PDict (xs : List (String × PyVal))
  | PNone
deriving Repr

/-- `isinstance(param, str)`. -/
def isPyStr : PyVal → Bool
  | .PStr _ => true
  | _ => false

/-- The string payload of a `PStr` value. -/
def pyStrVal : PyVal → String
  | .PStr s => s
  | _ => ""

/-- `isinstance(param, datetime.timedelta)`. -/
def isPyTimedelta : PyVal → Bool
  | .PTimedelta _ _ _ => true
  | _ => false

/-- `isinstance(param_value, Decimal)`. -/
def isPyDecimal : PyVal → Bool
  | .PDecimal _ => true
  | _ => false

/-- Translation of `is_time_type`. -/
def is_time_type (column_type : String) : Bool :=
  column_type = "DATE" ∨ column_type = "TIMESTAMP" ∨ column_type = "TIMESTAMP_NTZ"

/-- Modelled from the spec: ISO-8601 parseability of a string
(`datetime.datetime.fromisoformat`, external standard library).  The
model accepts a `YYYY-MM-DD` date optionally followed by a separator and
an `hh:mm[:ss[.ffffff]]` time, which is the shape the spec's temporal
validation relies on. -/
def fromisoformatOk (s : String) : Bool :=
  let digits := fun (l : List Char) => l.all Char.isDigit
  let two := fun (l : List Char) => decide (l.length = 2) && digits l
  let secOk := fun (rest : List Char) =>
    match rest.splitOn '.' with
    | [sec] => two sec
    | [sec, frac] => two sec && decide (frac ≠ []) && decide (frac.length ≤ 6) && digits frac
    | _ => false
  let timeOk := fun (t : List Char) =>
    match t.splitOn ':' with
    | [h, m] => two h && two m
    | [h, m, rest] => two h && two m && secOk rest
    | _ => false
  match s.data.splitOn '-' with
  | [y, m, rest] =>
    decide (y.length = 4) && digits y && two m &&
    (match rest with
     | d₁ :: d₂ :: tail =>
       d₁.isDigit && d₂.isDigit &&
       (match tail with
        | [] => true
        | _ :: t => timeOk t)
     | _ => false)
  | _ => false

/-- The value of one base64 alphabet character, if it is in the standard
alphabet `A-Z a-z 0-9 + /`. -/
def b64CharVal (c : Char) : Option Nat :=
  if 'A' ≤ c ∧ c ≤ 'Z' then some (c.toNat - 65)
  else if 'a' ≤ c ∧ c ≤ 'z' then some (c.toNat - 97 + 26)
  else if '0' ≤ c ∧ c ≤ '9' then some (c.toNat - 48 + 52)
  else if c = '+' then some 62
  else if c = '/' then some 63
  else none

/-- Decode one padded base64 quantum of four characters into its bytes. -/
def b64Quantum (a b : Char) (c d : Char) : Option (List Nat) :=
  match b64CharVal a, b64CharVal b with
  | some va, some vb =>
    if c = '=' ∧ d = '=' then
      if vb % 16 = 0 then some [va * 4 + vb / 16] else none
    else
      match b64CharVal c with
      | some vc =>
        if d = '=' then
          if vc % 4 = 0 then some [va * 4 + vb / 16, (vb % 16) * 16 + vc / 4] else none
        else
          match b64CharVal d with
          | some vd => some [va * 4 + vb / 16, (vb % 16) * 16 + vc / 4, (vc % 4) * 64 + vd]
          | none => none
      | none => none
  | _, _ => none

/-- Modelled from the spec: strict base64 decoding
(`base64.b64decode(s, validate=True)`, external standard library):
only alphabet and padding characters are allowed, the length must be a
multiple of four, and padding may appear only at the end of the final
quantum.  Returns the decoded bytes on success. -/
def b64decodeStrict : List Char → Option (List Nat)
  | [] => some []
  | a :: b :: c :: d :: rest =>
    match b64Quantum a b c d, rest with
    | some bytes, [] => some bytes
    | some bytes, _ =>
      if c = '=' ∨ d = '=' then none
      else match b64decodeStrict rest with
           | some more => some (bytes ++ more)
           | none => none
    | none, _ => none
  | _ => none

/-- Translation of `is_base64_encoded`: the string is valid exactly when
strict decoding succeeds. -/
def is_base64_encoded (s : String) : Bool := (b64decodeStrict s.data).isSome

/-- Translation of `validate_param`: per-type structural validation of a
single provided value, with the temporal, interval and binary branches
of the source.  Raised `ValueError`s become `Except.error`. -/
def validate_param (param : PyVal) (column_type : String) (param_type_text : String) :
    Except String Unit :=
  if is_time_type column_type ∧ isPyStr param then
    if fromisoformatOk (pyStrVal param) then .ok ()
    else .error ("Invalid datetime string: " ++ pyStrVal param ++ ", expecting ISO format.")
  else if column_type = "INTERVAL" then
    if isPyTimedelta param ∧ param_type_text ≠ "interval day to second" then
      .error ("Invalid interval type text: " ++ param_type_text ++
        ", expecting \x27interval day to second\x27, python timedelta can only be used for day-time interval.")
    else if isPyStr param ∧
        ¬((pyStrVal param).startsWith "INTERVAL" ∧ (pyStrVal param).endsWith "DAY TO SECOND") then
      .error ("Invalid interval string: " ++ pyStrVal param ++ ", expecting day-to-second interval format.")
    else .ok ()
  else if column_type = "BINARY" ∧ isPyStr param ∧ ¬is_base64_encoded (pyStrVal param) then
    .error ("The string input for column type BINARY must be base64 encoded, invalid input: " ++
      pyStrVal param ++ ".")
  else .ok ()

/-! ## Interval encoding (`convert_timedelta_to_interval_str`). -/

/-- A Python `datetime.timedelta` in normalized form: `0 ≤ seconds < 86400`
and `0 ≤ microseconds < 1000000`, with sign carried by `days`. -/
structure Timedelta where
  days : Int
  seconds : Nat
  microseconds : Nat
deriving Repr, DecidableEq

/-- Translation of `convert_timedelta_to_interval_str`: the f-string
renders every field as a plain (unpadded) integer, including the
microseconds after the decimal point. -/
def convert_timedelta_to_interval_str (time_val : Timedelta) : String :=
  let days := time_val.days
  let hours := time_val.seconds / 3600
  let remainder := time_val.seconds % 3600
  let minutes := remainder / 60
  let seconds := remainder % 60
  let microseconds := time_val.microseconds
  "INTERVAL \x27" ++ toString days ++ " " ++ toString hours ++ ":" ++ toString minutes ++
    ":" ++ toString seconds ++ "." ++ toString microseconds ++ "\x27 DAY TO SECOND"

/-- Take the leading decimal digits of a character list. -/
def takeDigits (l : List Char) : List Char × List Char :=
  (l.takeWhile Char.isDigit, l.dropWhile Char.isDigit)

/-- Numeric value of a digit string. -/
def digitsToNat (ds : List Char) : Nat :=
  ds.foldl (fun acc c => acc * 10 + (c.toNat - 48)) 0

/-- Expect a literal character sequence at the head of the input. -/
def expectLit (lit l : List Char) : Option (List Char) :=
  if l.take lit.length = lit then some (l.drop lit.length) else none

/-- A fraction-of-a-second digit string read as microseconds: `.1` is a
tenth of a second, i.e. 100000 microseconds. -/
def fracDigitsToMicros (ds : List Char) : Nat :=
  digitsToNat ds * 10 ^ 6 / 10 ^ ds.length

/-- Modelled from the spec: reading an `INTERVAL 'D H:M:S.ffffff' DAY TO
SECOND` literal back into its day/hour/minute/second/microsecond fields,
with the fractional part interpreted as a fraction of a second (the
conceptual remote-parser reading used by the round-trip property). -/
def parseIntervalDayToSecond (s : String) : Option (Int × Nat × Nat × Nat × Nat) :=
  match expectLit "INTERVAL \x27".data s.data with
  | none => none
  | some r =>
    let (neg, r) := if r.take 1 = ['-'] then (true, r.drop 1) else (false, r)
    let (dds, r) := takeDigits r
    if dds = [] then none else
    match expectLit " ".data r with
    | none => none
    | some r =>
      let (hds, r) := takeDigits r
      if hds = [] then none else
      match expectLit ":".data r with
      | none => none
      | some r =>
        let (mds, r) := takeDigits r
        if mds = [] then none else
        match expectLit ":".data r with
        | none => none
        | some r =>
          let (sds, r) := takeDigits r
          if sds = [] then none else
          match expectLit ".".data r with
          | none => none
          | some r =>
            let (fds, r) := takeDigits r
            if fds = [] then none else
            match expectLit "\x27 DAY TO SECOND".data r with
            | some [] =>
              let d : Int := if neg then -(digitsToNat dds : Int) else (digitsToNat dds : Int)
              some (d, digitsToNat hds, digitsToNat mds, digitsToNat sds, fracDigitsToMicros fds)
            | _ => none

/-! ## MD5 (hashlib.md5, external standard library), implemented over
byte lists with `Nat` arithmetic modulo `2^32`, used for the generated
struct schema names in `uc_type_json_to_pydantic_type`. -/

def w32mod : Nat := 4294967296

/-- Bitwise complement on a 32-bit word. -/
def wnot (a : Nat) : Nat := 4294967295 - a

/-- Left-rotation of a 32-bit word by `n` bits. -/
def wrotl (x n : Nat) : Nat := (x * 2 ^ n) % w32mod + x / 2 ^ (32 - n)

/-- The 64 per-round shift amounts of MD5. -/
def md5S : List Nat :=
  [7, 12, 17, 22, 7, 12, 17, 22, 7, 12, 17, 22, 7, 12, 17, 22,
   5, 9, 14, 20, 5, 9, 14, 20, 5, 9, 14, 20, 5, 9, 14, 20,
   4, 11, 16, 23, 4, 11, 16, 23, 4, 11, 16, 23, 4, 11, 16, 23,
   6, 10, 15, 21, 6, 10, 15, 21, 6, 10, 15, 21, 6, 10, 15, 21]

/-- The 64 sine-derived additive constants of MD5. -/
def md5K : List Nat :=
  [0xd76aa478, 0xe8c7b756, 0x242070db, 0xc1bdceee, 0xf57c0faf, 0x4787c62a, 0xa8304613, 0xfd469501,
   0x698098d8, 0x8b44f7af, 0xffff5bb1, 0x895cd7be, 0x6b901122, 0xfd987193, 0xa679438e, 0x49b40821,
   0xf61e2562, 0xc040b340, 0x265e5a51, 0xe9b6c7aa, 0xd62f105d, 0x02441453, 0xd8a1e681, 0xe7d3fbc8,
   0x21e1cde6, 0xc33707d6, 0xf4d50d87, 0x455a14ed, 0xa9e3e905, 0xfcefa3f8, 0x676f02d9, 0x8d2a4c8a,
   0xfffa3942, 0x8771f681, 0x6d9d6122, 0xfde5380c, 0xa4beea44, 0x4bdecfa9, 0xf6bb4b60, 0xbebfbc70,
   0x289b7ec6, 0xeaa127fa, 0xd4ef3085, 0x04881d05, 0xd9d4d039, 0xe6db99e5, 0x1fa27cf8, 0xc4ac5665,
   0xf4292244, 0x432aff97, 0xab9423a7, 0xfc93a039, 0x655b59c3, 0x8f0ccc92, 0xffeff47d, 0x85845dd1,
   0x6fa87e4f, 0xfe2ce6e0, 0xa3014314, 0x4e0811a1, 0xf7537e82, 0xbd3af235, 0x2ad7d2bb, 0xeb86d391]

/-- Little-endian 32-bit words of one 64-byte chunk. -/
def chunkWords (chunk : List Nat) : List Nat :=
  (List.range 16).map (fun j =>
    chunk.getD (4 * j) 0 + chunk.getD (4 * j + 1) 0 * 256 +
    chunk.getD (4 * j + 2) 0 * 65536 + chunk.getD (4 * j + 3) 0 * 16777216)

/-- One MD5 round: mixes round `i` into the running `(a, b, c, d)`. -/
def md5Round (M : List Nat) (st : Nat × Nat × Nat × Nat) (i : Nat) : Nat × Nat × Nat × Nat :=
  let (a, b, c, d) := st
  let (f, g) :=
    if i < 16 then ((b.land c).lor ((wnot b).land d), i)
    else if i < 32 then ((d.land b).lor ((wnot d).land c), (5 * i + 1) % 16)
    else if i < 48 then ((b.xor c).xor d, (3 * i + 5) % 16)
    else (c.xor (b.lor (wnot d)), (7 * i) % 16)
  let tmp := (f + a + md5K.getD i 0 + M.getD g 0) % w32mod
  (d, (b + wrotl tmp (md5S.getD i 0)) % w32mod, b, c)

/-- Compress one 64-byte chunk into the running digest state. -/
def md5Compress (h : Nat × Nat × Nat × Nat) (chunk : List Nat) : Nat × Nat × Nat × Nat :=
  let M := chunkWords chunk
  let (a, b, c, d) := (List.range 64).foldl (md5Round M) h
  let (h0, h1, h2, h3) := h
  ((h0 + a) % w32mod, (h1 + b) % w32mod, (h2 + c) % w32mod, (h3 + d) % w32mod)

/-- Fold the compression function over `n` successive 64-byte chunks. -/
def md5Blocks (h : Nat × Nat × Nat × Nat) : Nat → List Nat → Nat × Nat × Nat × Nat
  | 0, _ => h
  | n + 1, l => md5Blocks (md5Compress h (l.take 64)) n (l.drop 64)

/-- MD5 padding: a `0x80` byte, zeros to 56 mod 64, then the original
bit length as a 64-bit little-endian quantity. -/
def md5Pad (msg : List Nat) : List Nat :=
  let bitLen := (msg.length * 8) % 2 ^ 64
  let zeros := (55 + 64 - msg.length % 64) % 64
  msg ++ [0x80] ++ List.replicate zeros 0 ++
    (List.range 8).map (fun j => bitLen / 256 ^ j % 256)

/-- Little-endian bytes of a 32-bit word. -/
def wordBytes (w : Nat) : List Nat :=
  [w % 256, w / 256 % 256, w / 65536 % 256, w / 16777216 % 256]

/-- Lowercase hex digit for a value below 16. -/
def hexDigit (n : Nat) : Char :=
  if n < 10 then Char.ofNat (48 + n) else Char.ofNat (87 + n)

/-- Two lowercase hex digits of a byte. -/
def hexByte (b : Nat) : List Char := [hexDigit (b / 16), hexDigit (b % 16)]

/-- The full MD5 hex digest of a byte list (`hashlib.md5(...).hexdigest()`). -/
def md5Hexdigest (msg : List Nat) : String :=
  let padded := md5Pad msg
  let (a, b, c, d) :=
    md5Blocks (0x67452301, 0xefcdab89, 0x98badcfe, 0x10325476) (padded.length / 64) padded
  String.mk (([a, b, c, d].flatMap wordBytes).flatMap hexByte)

/-- UTF-8 encoding of a string (`str.encode()`), byte by byte. -/
def utf8Bytes (s : String) : List Nat :=
  s.data.flatMap (fun c =>
    let n := c.toNat
    if n < 128 then [n]
    else if n < 2048 then [192 + n / 64, 128 + n % 64]
    else if n < 65536 then [224 + n / 4096, 128 + n / 64 % 64, 128 + n % 64]
    else [240 + n / 262144, 128 + n / 4096 % 64, 128 + n / 64 % 64, 128 + n % 64])

/-! ## The struct branch of `uc_type_json_to_pydantic_type`
(utils.py lines 331-343): canonical JSON of the type descriptor and the
derived `Struct_<hash8>` model name. -/

mutual

/-- A Unity Catalog type-json descriptor: a primitive tag string or a
compound array/map/struct descriptor. -/
inductive UcTypeJson where
  | prim (name : String)
  | arr (elementType : UcTypeJson) (containsNull : Bool)
  | mp (keyType : String) (valueType : UcTypeJson) (valueContainsNull : Bool)
  | strct (fields : UcFieldsJson)

/-- The ordered field list of a struct descriptor; each field carries
its name, type, nullability and optional `metadata.comment`. -/
inductive UcFieldsJson where
  | nil
  | cons (name : String) (ty : UcTypeJson) (nullable : Bool) (comment : Option String)
      (rest : UcFieldsJson)

end

/-- JSON string literal rendering with the escapes `json.dumps` applies
to quote and backslash characters. -/
def jsonQuote (s : String) : String :=
  String.mk ('"' :: s.data.flatMap (fun c =>
    if c = '"' then ['\\', '"']
    else if c = '\\' then ['\\', '\\']
    else [c]) ++ ['"'])

/-- `json.dumps` rendering of a bool. -/
def jsonBool (b : Bool) : String := if b then "true" else "false"

/-- The `metadata` object of a struct field as serialized JSON. -/
def fieldMetadataJson : Option String → String
  | none => "\x7b\x7d"
  | some c => "\x7b\"comment\": " ++ jsonQuote c ++ "\x7d"

mutual

/-- `json.dumps(uc_type_json, sort_keys=True)` on a descriptor: object
keys in sorted order with the default `", "` and `": "` separators,
exactly as the source canonicalizes the descriptor before hashing. -/
def canonJson : UcTypeJson → String
  | .prim name => jsonQuote name
  | .arr elementType containsNull =>
    "\x7b\"containsNull\": " ++ jsonBool containsNull ++
    ", \"elementType\": " ++ canonJson elementType ++ ", \"type\": \"array\"\x7d"
  | .mp keyType valueType valueContainsNull =>
    "\x7b\"keyType\": " ++ jsonQuote keyType ++ ", \"type\": \"map\"" ++
    ", \"valueContainsNull\": " ++ jsonBool valueContainsNull ++
    ", \"valueType\": " ++ canonJson valueType ++ "\x7d"
  | .strct fields =>
    "\x7b\"fields\": [" ++ canonFields fields ++ "], \"type\": \"struct\"\x7d"

/-- Serialize the sorted-key JSON objects of a struct field list, joined
by the default `", "` separator. -/
def canonFields : UcFieldsJson → String
  | .nil => ""
  | .cons name ty nullable comment .nil =>
    "\x7b\"metadata\": " ++ fieldMetadataJson comment ++
    ", \"name\": " ++ jsonQuote name ++
    ", \"nullable\": " ++ jsonBool nullable ++
    ", \"type\": " ++ canonJson ty ++ "\x7d"
  | .cons name ty nullable comment rest =>
    "\x7b\"metadata\": " ++ fieldMetadataJson comment ++
    ", \"name\": " ++ jsonQuote name ++
    ", \"nullable\": " ++ jsonBool nullable ++
    ", \"type\": " ++ canonJson ty ++ "\x7d" ++ ", " ++ canonFields rest

end

/-- The generated model name of the struct branch:
`f"Struct_{md5(json.dumps(d, sort_keys=True)).hexdigest()[:8]}"`. -/
def structModelName (uc_type_json : UcTypeJson) : String :=
  "Struct_" ++ String.mk ((md5Hexdigest (utf8Bytes (canonJson uc_type_json))).data.take 8)

/-! ## Databricks client metadata types (databricks.py). -/

/-- The remote column type tags (`databricks.sdk.service.catalog.ColumnTypeName`). -/
inductive ColumnTypeName where
  | ARRAY
  | BINARY
  | BOOLEAN
  | BYTE
  | CHAR
  | DATE
  | DECIMAL
  | DOUBLE
  | FLOAT
  | INT
  | INTERVAL
  | LONG
  | MAP
  | NULL
  | SHORT
  | STRING
  | STRUCT
  | TABLE_TYPE
  | TIMESTAMP
  | TIMESTAMP_NTZ
  | USER_DEFINED_TYPE
deriving Repr, DecidableEq

/-- `ColumnTypeName.value`: the tag as a string. -/
def ctnValue : ColumnTypeName → String
  | .ARRAY => "ARRAY"
  | .BINARY => "BINARY"
  | .BOOLEAN => "BOOLEAN"
  | .BYTE => "BYTE"
  | .CHAR => "CHAR"
  | .DATE => "DATE"
  | .DECIMAL => "DECIMAL"
  | .DOUBLE => "DOUBLE"
  | .FLOAT => "FLOAT"
  | .INT => "INT"
  | .INTERVAL => "INTERVAL"
  | .LONG => "LONG"
  | .MAP => "MAP"
  | .NULL => "NULL"
  | .SHORT => "SHORT"
  | .STRING => "STRING"
  | .STRUCT => "STRUCT"
  | .TABLE_TYPE => "TABLE_TYPE"
  | .TIMESTAMP => "TIMESTAMP"
  | .TIMESTAMP_NTZ => "TIMESTAMP_NTZ"
  | .USER_DEFINED_TYPE => "USER_DEFINED_TYPE"

structure FunctionParameterInfo where
  name : String
  type_name : ColumnTypeName
  type_text : String
deriving Repr

structure FunctionInputParams where
  parameters : Option (List FunctionParameterInfo)
deriving Repr

structure FunctionInfo where
  full_name : String
  data_type : Option ColumnTypeName
  input_params : Option FunctionInputParams
deriving Repr

/-- Translation of `is_scalar`: everything except an explicit
`TABLE_TYPE` return type counts as scalar. -/
def is_scalar (function : FunctionInfo) : Bool :=
  function.data_type ≠ some ColumnTypeName.TABLE_TYPE

/-! ## The SQL statement builder (`get_execute_function_sql_stmt`). -/

/-- Modelled from the spec: JSON-encoding of a provided value
(`json.dumps`, external standard library), rendered to bounded depth;
the marshaling properties proved here never depend on the rendered
text itself. -/
def jsonDumpsDepth : Nat → PyVal → String
  | _, .PStr s => jsonQuote s
  | _, .PInt n => toString n
  | _, .PFloat s => s
  | _, .PBool b => jsonBool b
  | _, .PNone => "null"
  | 0, _ => ""
  | fuel + 1, .PList xs => "[" ++ String.intercalate ", " (xs.map (jsonDumpsDepth fuel)) ++ "]"
  | fuel + 1, .PDict xs =>
    "\x7b" ++ String.intercalate ", "
      (xs.map (fun p => jsonQuote p.1 ++ ": " ++ jsonDumpsDepth fuel p.2)) ++ "\x7d"
  | _, _ => ""

def jsonDumpsVal (v : PyVal) : String := jsonDumpsDepth 32 v

/-- Modelled from the spec: `param_value.isoformat()` for temporal
values (external standard library); the stored ISO text of the value. -/
def pyIsoformat : PyVal → String
  | .PDate iso => iso
  | .PDatetime iso => iso
  | _ => ""

/-- The timedelta fields of a `PTimedelta` value. -/
def pyTimedeltaOf : PyVal → Timedelta
  | .PTimedelta d s us => { days := d, seconds := s, microseconds := us }
  | _ => { days := 0, seconds := 0, microseconds := 0 }

/-- `float(param_value)` applied to a `Decimal` value, as a value-level
conversion (the numeric text is carried through unchanged). -/
def pyFloatOfDecimal : PyVal → PyVal
  | .PDecimal s => .PFloat s
  | v => v

structure StatementParameterListItem where
  name : String
  value : PyVal
  type : Option String
deriving Repr

structure ParameterizedStatement where
  statement : String
  parameters : List StatementParameterListItem
deriving Repr

/-- Look up a provided argument by declared parameter name
(`param_info.name in parameters` / `parameters[param_info.name]`). -/
def lookupArg (parameters : List (String × PyVal)) (name : String) : Option PyVal :=
  (parameters.find? (fun p => p.1 = name)).map (fun p => p.2)

/-- The clause text emitted for one present argument, before the
optional `name => ` marker: `from_json` for complex types, `unbase64`
for binary, and a plain named placeholder otherwise. -/
def argBodyOf (param_info : FunctionParameterInfo) : String :=
  if param_info.type_name = .ARRAY ∨ param_info.type_name = .MAP ∨
      param_info.type_name = .STRUCT then
    "from_json(:" ++ param_info.name ++ ", :" ++ param_info.name ++ "_type)"
  else if param_info.type_name = .BINARY then
    "unbase64(:" ++ param_info.name ++ ")"
  else
    ":" ++ param_info.name

/-- The out-of-band bindings appended for one present argument, per the
type dispatch of the source. -/
def argOutOf (param_info : FunctionParameterInfo) (param_value : PyVal) :
    List StatementParameterListItem :=
  if param_info.type_name = .ARRAY ∨ param_info.type_name = .MAP ∨
      param_info.type_name = .STRUCT then
    [{ name := param_info.name, value := .PStr (jsonDumpsVal param_value), type := none },
     { name := param_info.name ++ "_type", value := .PStr param_info.type_text, type := none }]
  else if param_info.type_name = .BINARY then
    [{ name := param_info.name, value := param_value, type := none }]
  else if is_time_type (ctnValue param_info.type_name) then
    [{ name := param_info.name,
       value := .PStr (if isPyStr param_value then pyStrVal param_value else pyIsoformat param_value),
       type := some param_info.type_text }]
  else if param_info.type_name = .INTERVAL then
    [{ name := param_info.name,
       value := .PStr (if isPyStr param_value then pyStrVal param_value
         else convert_timedelta_to_interval_str (pyTimedeltaOf param_value)),
       type := some param_info.type_text }]
  else
    let param_value :=
      if param_info.type_name = .DECIMAL ∧ isPyDecimal param_value then
        pyFloatOfDecimal param_value
      else param_value
    [{ name := param_info.name, value := param_value, type := some param_info.type_text }]

/-- The loop state of the argument-emitting `for` loop: the clause list,
the binding list and the `use_named_args` flag. -/
structure BuildSt where
  args : List String
  out : List StatementParameterListItem
  useNamed : Bool

/-- One iteration of the argument-emitting loop: an omitted parameter
switches `use_named_args` on; a present parameter emits its clause,
prefixed with `name => ` whenever the flag is on. -/
def argStep (parameters : List (String × PyVal)) (st : BuildSt)
    (param_info : FunctionParameterInfo) : BuildSt :=
  match lookupArg parameters param_info.name with
  | none => { st with useNamed := true }
  | some param_value =>
    { st with
      args := st.args ++
        [(if st.useNamed then param_info.name ++ " => " else "") ++ argBodyOf param_info],
      out := st.out ++ argOutOf param_info param_value }

/-- The whole argument loop over the declared parameter list. -/
def buildArgs (parameters : List (String × PyVal)) (ps : List FunctionParameterInfo) : BuildSt :=
  ps.foldl (argStep parameters) { args := [], out := [], useNamed := false }

/-- The declared parameter list behind the two optional layers
(`function.input_params` / `.parameters`). -/
def getInputParamList (function : FunctionInfo) : Option (List FunctionParameterInfo) :=
  function.input_params.bind (fun ip => ip.parameters)

/-- Translation of `get_execute_function_sql_stmt`: scalar functions use
the `SELECT IDENTIFIER(:function_name)(...)` pattern with a binding for
the name, table functions the `SELECT * FROM full_name(...)` pattern;
the argument loop only runs when both the provided mapping and the
declared parameter list are non-empty. -/
def get_execute_function_sql_stmt (function : FunctionInfo)
    (parameters : List (String × PyVal)) : ParameterizedStatement :=
  let scalar := is_scalar function
  let head :=
    if scalar then "SELECT IDENTIFIER(:function_name)("
    else "SELECT * FROM " ++ function.full_name ++ "("
  let out0 : List StatementParameterListItem :=
    if scalar then [{ name := "function_name", value := .PStr function.full_name, type := none }]
    else []
  match getInputParamList function with
  | some ps =>
    if parameters.isEmpty = false ∧ ps.isEmpty = false then
      let st := buildArgs parameters ps
      { statement := head ++ String.intercalate "," st.args ++ ")",
        parameters := out0 ++ st.out }
    else { statement := head ++ ")", parameters := out0 }
  | none => { statement := head ++ ")", parameters := out0 }

/-! ## The execution result decoder (`_execute_uc_function`, the part
after statement submission: polling, terminal-state mapping, scalar and
tabular decoding). -/

inductive StatementState where
  | PENDING
  | RUNNING
  | SUCCEEDED
  | FAILED
  | CANCELED
  | CLOSED
deriving Repr, DecidableEq

structure ServiceError where
  error_code : Option String
  message : Option String
deriving Repr, DecidableEq

structure StatementStatus where
  state : Option StatementState
  error : Option ServiceError
deriving Repr, DecidableEq

structure ColumnInfoM where
  name : Option String
deriving Repr, DecidableEq

structure ResultSchema where
  columns : Option (List ColumnInfoM)
deriving Repr, DecidableEq

structure ResultManifest where
  truncated : Option Bool
  schema : Option ResultSchema
deriving Repr, DecidableEq

structure ResultData where
  data_array : Option (List (List (Option String)))
deriving Repr, DecidableEq

structure StatementResponse where
  status : Option StatementStatus
  statement_id : Option String
  manifest : Option ResultManifest
  result : Option ResultData
deriving Repr, DecidableEq

/-- Modelled from the spec: the typed `ExecutionResult` returned to
callers (`FunctionExecutionResult` lives in the client module, outside
the provided sources): either an error string, or a SCALAR/CSV payload
with a truncation flag. -/
structure FunctionExecutionResult where
  error : Option String := none
  format : Option String := none
  value : Option String := none
  truncated : Option Bool := none
deriving Repr, DecidableEq

/-- The decoding step's outcome: a returned `FunctionExecutionResult`,
or an exception propagated to the caller. -/
inductive ExecOutcome where
  | ok (result : FunctionExecutionResult)
  | raised (exception : String)
deriving Repr, DecidableEq

/-- The polling continuation condition: the loop keeps polling exactly
while `response.status` is present with state `PENDING`. -/
def respIsPending (r : StatementResponse) : Bool :=
  match r.status with
  | some s => s.state = some StatementState.PENDING
  | none => false

/-- Python truthiness of the optional statement id (non-None, non-empty). -/
def optStrTruthy : Option String → Bool
  | some s => s ≠ ""
  | none => false

/-- `str(x)` of an optional enum/string field (`None` prints as such). -/
def optStr : Option String → String
  | some s => s
  | none => "None"

/-- The bounded retry loop: before each poll it sleeps `2^retry_cnt`
time units (recorded in the returned list), then polls; it stops early
as soon as a poll is no longer pending. -/
def pollRetryLoop (poll : Nat → StatementResponse) :
    Nat → Nat → StatementResponse → List Nat → StatementResponse × List Nat
  | _, 0, resp, sleeps => (resp, sleeps)
  | cnt, remaining + 1, _, sleeps =>
    let sleeps := sleeps ++ [2 ^ cnt]
    let resp := poll cnt
    if respIsPending resp then pollRetryLoop poll (cnt + 1) remaining resp sleeps
    else (resp, sleeps)

/-- Modelled from the spec: the delimited tabular rendering of rows
(`pandas.DataFrame(...).to_csv(index=False)`, external library): a
header row of column names then one line per row, empty text for
missing cells. -/
def csvCell : Option String → String
  | none => ""
  | some s => s

def csvRender (names : List (Option String)) (rows : List (List (Option String))) : String :=
  String.intercalate "," (names.map csvCell) ++ "\n" ++
    String.join (rows.map (fun r => String.intercalate "," (r.map csvCell) ++ "\n"))

/-- The response decoding of lines 371-419 of databricks.py: map a
missing status, a non-succeeded state, and a missing manifest, result or
schema to error results; decode a succeeded response as a scalar first
cell or a rendered CSV table.  The tabular branch first attempts the
pandas load and raises `ImportError` when the library is missing. -/
def decodeResponse (scalar pandasAvailable : Bool) (response : StatementResponse) : ExecOutcome :=
  match response.status with
  | none => .ok { error := some ("Statement execution failed: " ++ reprStr response) }
  | some status =>
    if status.state ≠ some StatementState.SUCCEEDED then
      match status.error with
      | none =>
        .ok { error := some ("Statement execution failed but no error message was provided: " ++
          reprStr response) }
      | some error =>
        .ok { error := some (optStr error.error_code ++ ": " ++ optStr error.message) }
    else
      match response.manifest with
      | none => .ok { error := some "Statement execution succeeded but no manifest was returned." }
      | some manifest =>
        let truncated := manifest.truncated
        match response.result with
        | none => .ok { error := some "Statement execution succeeded but no result was provided." }
        | some result =>
          let data_array := result.data_array
          if scalar then
            let value : Option String :=
              match data_array with
              | some ((cell :: _) :: _) => cell
              | _ => none
            .ok { format := some "SCALAR", value := value, truncated := truncated }
          else
            if ¬pandasAvailable then
              .raised "Could not import pandas python package. Please install it with pip install pandas."
            else
              match manifest.schema with
              | none =>
                .ok { error := some "Statement execution succeeded but no schema was provided for table function." }
              | some schema =>
                match schema.columns with
                | none =>
                  .ok { error := some "Statement execution succeeded but no schema was provided for table function." }
                | some columns =>
                  let names := columns.map (fun c => c.name)
                  let rows := data_array.getD []
                  .ok { format := some "CSV", value := some (csvRender names rows),
                        truncated := truncated }

/-- The decoding step from the initial submission response onward: when
the response is pending and carries a statement id, run the bounded
retry loop (6 retries); report a still-pending final state as an error
result; otherwise decode the final response.  Also returns the recorded
sleep durations. -/
def decodeExecution (scalar pandasAvailable : Bool) (poll : Nat → StatementResponse)
    (response0 : StatementResponse) : ExecOutcome × List Nat :=
  let max_retries := 6
  if respIsPending response0 ∧ optStrTruthy response0.statement_id then
    let (response, sleeps) := pollRetryLoop poll 1 max_retries response0 []
    if respIsPending response then
      (.ok { error := some ("Statement execution is still pending after " ++
        toString max_retries ++
        " times. Please try increase the wait_timeout argument for executing the function.") },
        sleeps)
    else (decodeResponse scalar pandasAvailable response, sleeps)
  else (decodeResponse scalar pandasAvailable response0, [])

/-! ## Claim theorems. -/

/-- C8: `get_tool_name` returns the name unchanged when it has at most
64 characters, returns exactly the last 64 characters when it is
longer, and therefore always returns at most 64 characters. -/
theorem get_tool_name_spec (func_name : String) :
    (func_name.length ≤ 64 → get_tool_name func_name = func_name) ∧
    (func_name.length > 64 →
      (get_tool_name func_name).data = func_name.data.drop (func_name.data.length - 64) ∧
      (get_tool_name func_name).length = 64) ∧
    (get_tool_name func_name).length ≤ 64 := by
  have hdl : func_name.length = func_name.data.length := rfl
  by_cases h : func_name.length > 64
  · have hgt : get_tool_name func_name =
        String.mk (func_name.data.drop (func_name.data.length - 64)) := by
      unfold get_tool_name
      rw [if_pos h]
    have hlen : (get_tool_name func_name).length = 64 := by
      rw [hgt]
      show (func_name.data.drop (func_name.data.length - 64)).length = 64
      rw [List.length_drop]
      omega
    exact ⟨fun hle => absurd h (by omega), fun _ => ⟨by rw [hgt], hlen⟩, by omega⟩
  · have heq : get_tool_name func_name = func_name := by
      unfold get_tool_name
      rw [if_neg h]
    exact ⟨fun _ => heq, fun hgt => absurd hgt h, by rw [heq]; omega⟩

/-- C8 witness: a short name passes through unchanged; a 65-character
name is truncated to length 64. -/
theorem get_tool_name_witness :
    get_tool_name "cat.sch.fn" = "cat.sch.fn" ∧
    (get_tool_name
      "a123456789b123456789c123456789d123456789e123456789f123456789gxyz!").length = 64 :=
  ⟨(get_tool_name_spec "cat.sch.fn").1 (by decide),
   ((get_tool_name_spec
      "a123456789b123456789c123456789d123456789e123456789f123456789gxyz!").2.1 (by decide)).2⟩

/-- C9: `validate_full_function_name` accepts exactly the strings that
split on dots into three (possibly empty) segments, returning those
segments; any other dot count is rejected with an error. -/
theorem validate_full_function_name_spec (s : String) :
    (s.data.count '.' = 2 →
      ∃ a b c, splitDot s.data = [a, b, c] ∧
        validate_full_function_name s =
          .ok { catalog_name := String.mk a, schema_name := String.mk b,
                function_name := String.mk c }) ∧
    (s.data.count '.' ≠ 2 → ∃ e, validate_full_function_name s = .error e) := by
  constructor
  · intro h
    have hl : (splitDot s.data).length = 3 := by rw [length_splitDot, h]
    rcases hsd : splitDot s.data with _ | ⟨a, _ | ⟨b, _ | ⟨c, _ | ⟨d, rest⟩⟩⟩⟩ <;> rw [hsd] at hl
    · exact absurd hl (by simp)
    · exact absurd hl (by simp)
    · exact absurd hl (by simp)
    · exact ⟨a, b, c, rfl, by unfold validate_full_function_name; rw [hsd]⟩
    · exact absurd hl (by simp)
  · intro h
    have hl : (splitDot s.data).length ≠ 3 := by rw [length_splitDot]; omega
    refine ⟨"Invalid function name: " ++ s ++
      ", expecting format <catalog_name>.<schema_name>.<function_name>.", ?_⟩
    unfold validate_full_function_name
    rcases hsd : splitDot s.data with _ | ⟨a, _ | ⟨b, _ | ⟨c, _ | ⟨d, rest⟩⟩⟩⟩
    · rfl
    · rfl
    · rfl
    · rw [hsd] at hl
      exact absurd rfl hl
    · rfl

/-- C9 witness: `a.b.` and `..` (two dots, empty segments allowed) are
accepted with their segments, and `a.b` (one dot) is rejected. -/
theorem validate_full_function_name_witness :
    (∃ a b c, splitDot "a.b.".data = [a, b, c] ∧
      validate_full_function_name "a.b." =
        .ok { catalog_name := String.mk a, schema_name := String.mk b,
              function_name := String.mk c }) ∧
    (∃ e, validate_full_function_name "a.b" = .error e) :=
  ⟨(validate_full_function_name_spec "a.b.").1 (by decide),
   (validate_full_function_name_spec "a.b").2 (by decide)⟩

/-- C10: for a BINARY column, `validate_param` accepts a string value
exactly when strict base64 decoding accepts it, and the empty string is
valid base64 and passes. -/
theorem validate_param_binary_spec (s t : String) :
    (validate_param (.PStr s) "BINARY" t = .ok () ↔ is_base64_encoded s = true) ∧
    validate_param (.PStr "") "BINARY" t = .ok () := by
  constructor
  · unfold validate_param
    have h1 : is_time_type "BINARY" = false := by decide
    have h2 : ("BINARY" : String) ≠ "INTERVAL" := by decide
    simp [h1, h2, isPyStr, pyStrVal]
  · unfold validate_param
    have h1 : is_time_type "BINARY" = false := by decide
    have h2 : ("BINARY" : String) ≠ "INTERVAL" := by decide
    have h3 : is_base64_encoded "" = true := by decide
    simp [h1, h2, h3, isPyStr, pyStrVal]

/-- C10 witness: the empty string passes BINARY validation, and a
well-formed base64 string is accepted via the equivalence. -/
theorem validate_param_binary_witness :
    validate_param (.PStr "") "BINARY" "binary" = .ok () ∧
    validate_param (.PStr "SGVsbG8=") "BINARY" "binary" = .ok () :=
  ⟨(validate_param_binary_spec "" "binary").2,
   (validate_param_binary_spec "SGVsbG8=" "binary").1.mpr (by decide)⟩

/-- C1: the encoding of `timedelta(microseconds=1)` renders the
fractional field without zero-padding as `.1`, which read back as a
fraction of a second denotes 100000 microseconds, not 1 — the
encode/parse round trip loses the microsecond value. -/
theorem interval_roundtrip_failure :
    convert_timedelta_to_interval_str { days := 0, seconds := 0, microseconds := 1 } =
      "INTERVAL \x270 0:0:0.1\x27 DAY TO SECOND" ∧
    parseIntervalDayToSecond "INTERVAL \x270 0:0:0.1\x27 DAY TO SECOND" =
      some (0, 0, 0, 0, 100000) ∧
    (100000 : Nat) ≠ 1 := by
  refine ⟨by decide, by decide, by decide⟩

/-- Left-cancellation of string concatenation. -/
theorem string_append_left_cancel (p a b : String) (h : p ++ a = p ++ b) : a = b := by
  cases p with
  | mk pd =>
    cases a with
    | mk ad =>
      cases b with
      | mk bd =>
        have hd : pd ++ ad = pd ++ bd := congrArg String.data h
        exact congrArg String.mk (List.append_cancel_left hd)

/-- C2: the generated struct schema name is a deterministic function of
the descriptor (compiling twice yields the same name), and two
descriptors receive the same name exactly when the first 8 hex
characters of the md5 of their canonical sorted-key JSON coincide — so
differing descriptors get different names unless those hashes collide. -/
theorem structModelName_spec (d₁ d₂ : UcTypeJson) :
    structModelName d₁ = structModelName d₁ ∧
    (structModelName d₁ = structModelName d₂ ↔
      (md5Hexdigest (utf8Bytes (canonJson d₁))).data.take 8 =
        (md5Hexdigest (utf8Bytes (canonJson d₂))).data.take 8) := by
  refine ⟨rfl, ?_, ?_⟩
  · intro h
    unfold structModelName at h
    have h2 := string_append_left_cancel "Struct_" _ _ h
    exact congrArg String.data h2
  · intro h
    unfold structModelName
    rw [h]

set_option maxRecDepth 1000000 in
/-- C2 witness: the full pipeline evaluated on a concrete one-field
struct descriptor, matching the hash produced by Python's
`md5(json.dumps(d, sort_keys=True).encode()).hexdigest()[:8]`. -/
theorem structModelName_witness :
    structModelName (.strct (.cons "a" (.prim "INTEGER") true none .nil)) =
      structModelName (.strct (.cons "a" (.prim "INTEGER") true none .nil)) ∧
    structModelName (.strct (.cons "a" (.prim "INTEGER") true none .nil)) =
      "Struct_0da04943" :=
  ⟨(structModelName_spec (.strct (.cons "a" (.prim "INTEGER") true none .nil))
      (.strct (.cons "a" (.prim "INTEGER") true none .nil))).1,
   by decide⟩

/-- Every value present after a `dictSet` is an old value or the newly
inserted one. -/
theorem dictSet_values (d : List (List Char × List Char)) (k v : List Char)
    (hd : ∀ p ∈ d, p.2 ≠ []) (hv : v ≠ []) :
    ∀ p ∈ dictSet d k v, p.2 ≠ [] := by
  intro p hp
  unfold dictSet at hp
  split at hp
  · obtain ⟨q, hq, hqe⟩ := List.mem_map.mp hp
    split at hqe
    · rw [← hqe]
      exact hv
    · rw [← hqe]
      exact hd q hq
  · rcases List.mem_append.mp hp with h | h
    · exact hd p h
    · rw [List.mem_singleton] at h
      rw [h]
      exact hv

/-- `flushParam` only ever inserts a non-empty description. -/
theorem flushParam_preserves (st : ParseSt)
    (hd : ∀ p ∈ st.parsedParams, p.2 ≠ []) :
    ∀ p ∈ (flushParam st).parsedParams, p.2 ≠ [] := by
  unfold flushParam
  split
  · simp only []
    split
    · exact dictSet_values _ _ _ hd (by assumption)
    · exact hd
  · exact hd

/-- `flushReturns` never touches the parameter mapping. -/
theorem flushReturns_parsedParams (st : ParseSt) :
    (flushReturns st).parsedParams = st.parsedParams := by
  unfold flushReturns
  split <;> rfl

/-- One parser step only ever inserts non-empty descriptions into the
parameter mapping. -/
theorem processLine_preserves (st : ParseSt) (line : List Char)
    (hd : ∀ p ∈ st.parsedParams, p.2 ≠ []) :
    ∀ p ∈ (processLine st line).parsedParams, p.2 ≠ [] := by
  unfold processLine
  dsimp only
  repeat' (first | split | dsimp only)
  all_goals first
    | exact hd
    | exact flushParam_preserves _ hd
    | (rw [flushReturns_parsedParams]; exact hd)

/-- The loop preserves the non-empty-values invariant. -/
theorem foldl_processLine_preserves (lines : List (List Char)) :
    ∀ st : ParseSt, (∀ p ∈ st.parsedParams, p.2 ≠ []) →
      ∀ p ∈ (lines.foldl processLine st).parsedParams, p.2 ≠ [] := by
  induction lines with
  | nil => exact fun st h => h
  | cons l rest ih => exact fun st h => ih _ (processLine_preserves _ _ h)

/-- The final machine state satisfies the invariant. -/
theorem finalState_params_nonempty (docstring : String) :
    ∀ p ∈ (finalState docstring).parsedParams, p.2 ≠ [] := by
  unfold finalState
  dsimp only
  have h0 : ∀ p ∈ initParseSt.parsedParams, p.2 ≠ [] := by
    intro p hp
    simp [initParseSt] at hp
  have h1 := foldl_processLine_preserves
    (splitLinesChars (stripChars docstring.data) ++ [[]]) initParseSt h0
  split
  · split
    · rw [flushReturns_parsedParams]
      exact flushParam_preserves _ h1
    · exact flushParam_preserves _ h1
  · split
    · rw [flushReturns_parsedParams]
      exact h1
    · exact h1

/-- C7: a parameter whose accumulated description is empty is never
present in the params mapping of a successful parse — every stored
value is a non-empty string. -/
theorem parse_docstring_params_nonempty (docstring : String) (info : DocstringInfo)
    (h : parse_docstring docstring = .ok info) :
    ∀ k v, (k, v) ∈ info.params → v ≠ "" := by
  intro k v hin
  unfold parse_docstring at h
  split at h
  · exact absurd h (by simp)
  · dsimp only at h
    split at h
    · exact absurd h (by simp)
    · have hparams : info.params =
          (finalState docstring).parsedParams.map (fun p => (String.mk p.1, String.mk p.2)) := by
        have h2 := Except.ok.inj h
        rw [← h2]
      rw [hparams] at hin
      obtain ⟨p, hp, hpe⟩ := List.mem_map.mp hin
      have hne := finalState_params_nonempty docstring p hp
      intro hveq
      apply hne
      have hv2 : String.mk p.2 = v := congrArg Prod.snd hpe
      have hmk : String.mk p.2 = String.mk [] := by
        rw [hv2, hveq]
      exact congrArg String.data hmk

/-- C7 witness: a concrete docstring with a described parameter; its
stored description is non-empty. -/
theorem parse_docstring_params_nonempty_witness : ("hello" : String) ≠ "" :=
  parse_docstring_params_nonempty "desc\nArgs:\n  x: hello"
    { description := "desc", params := [("x", "hello")], returns := none }
    (by rfl) "x" "hello" (by decide)

/-- The ARGS-section state reached after the lines `desc`, `Args:` and
`  x: first`: base indent 2, parameter `x` open with description
fragment `first`. -/
def argsOpenState : ParseSt :=
  { state := .ARGS, descriptionLines := ["desc".data], parsedParams := [],
    returns := none, currentParam := some "x".data, paramDescLines := ["first".data],
    returnDescLines := [], paramIndent := some 2, returnIndent := none }

/-- C6 counterexample: in a reachable ARGS state, the non-blank line
`    Returns:` is indented strictly more than the base indent, yet the
parser transitions to the RETURNS state instead of treating it as a
continuation line. -/
theorem processLine_continuation_counterexample :
    List.foldl processLine initParseSt ["desc".data, "Args:".data, "  x: first".data] =
      argsOpenState ∧
    argsOpenState.state = PState.ARGS ∧
    argsOpenState.paramIndent = some 2 ∧
    stripChars "    Returns:".data ≠ [] ∧
    "    Returns:".data.length - (lstripChars "    Returns:".data).length > 2 ∧
    (processLine argsOpenState "    Returns:".data).state = PState.RETURNS ∧
    (processLine argsOpenState "    Returns:".data).state ≠ PState.ARGS := by
  refine ⟨by decide, by decide, by decide, by decide, by decide, by decide, by decide⟩

/-- C6 (amended): in the ARGS state with the base indent established, a
non-blank line whose stripped text is not exactly `Returns:`, whose
indent is at least the base indent, and which is indented strictly more
than the base indent or contains no colon, never causes a transition
out of ARGS; when a parameter is open, its stripped text is appended to
that parameter's description. -/
theorem processLine_continuation_spec (st : ParseSt) (line : List Char) (b : Nat)
    (hst : st.state = PState.ARGS)
    (hnb : stripChars line ≠ [])
    (hbi : st.paramIndent = some b)
    (hret : lstripChars line ≠ "Returns:".data)
    (hge : line.length - (lstripChars line).length ≥ b)
    (hcont : line.length - (lstripChars line).length > b ∨
      (lstripChars line).any (fun c => c = ':') = false) :
    (processLine st line).state = PState.ARGS ∧
    (optTruthy st.currentParam = true →
      (processLine st line).paramDescLines = st.paramDescLines ++ [lstripChars line]) ∧
    (processLine st line).parsedParams = st.parsedParams ∧
    (processLine st line).currentParam = st.currentParam := by
  unfold processLine
  rw [if_neg hnb]
  try dsimp only
  rw [hst]
  try dsimp only
  rw [if_neg hret, hbi]
  try dsimp only
  have hnone : ¬((some b : Option Nat) = none) := by simp
  rw [if_neg hnone]
  rw [hbi]
  have hb : (some b).getD 0 = b := rfl
  rw [hb]
  have hlt : ¬(line.length - (lstripChars line).length < b) := by omega
  rw [if_neg hlt]
  rcases hcont with hgt | hnc
  · by_cases hc : (lstripChars line).any (fun c => c = ':') = true
    · rw [if_pos hc]
      try dsimp only
      have hne : ¬(line.length - (lstripChars line).length = b) := by omega
      rw [if_neg hne]
      cases hcp : optTruthy st.currentParam
      · rw [if_neg (by simp [hcp])]
        exact ⟨hst, fun hh => absurd hh (by simp [hcp]), rfl, rfl⟩
      · rw [if_pos (by simp [hcp])]
        exact ⟨hst, fun _ => rfl, rfl, rfl⟩
    · rw [if_neg hc]
      cases hcp : optTruthy st.currentParam
      · rw [if_neg (by simp [hcp])]
        exact ⟨hst, fun hh => absurd hh (by simp [hcp]), rfl, rfl⟩
      · rw [if_pos (by simp [hcp])]
        exact ⟨hst, fun _ => rfl, rfl, rfl⟩
  · rw [if_neg (by simp [hnc])]
    cases hcp : optTruthy st.currentParam
    · rw [if_neg (by simp [hcp])]
      exact ⟨hst, fun hh => absurd hh (by simp [hcp]), rfl, rfl⟩
    · rw [if_pos (by simp [hcp])]
      exact ⟨hst, fun _ => rfl, rfl, rfl⟩

/-- C6 witness: the amended statement applied to the reachable state and
the over-indented continuation line `    more detail`. -/
theorem processLine_continuation_witness :
    (processLine argsOpenState "    more detail".data).state = PState.ARGS ∧
    (optTruthy argsOpenState.currentParam = true →
      (processLine argsOpenState "    more detail".data).paramDescLines =
        argsOpenState.paramDescLines ++ [lstripChars "    more detail".data]) ∧
    (processLine argsOpenState "    more detail".data).parsedParams =
      argsOpenState.parsedParams ∧
    (processLine argsOpenState "    more detail".data).currentParam =
      argsOpenState.currentParam :=
  processLine_continuation_spec argsOpenState "    more detail".data 2
    (by decide) (by decide) (by decide) (by decide) (by decide) (by decide)

/-- The `use_named_args` flag is never reset once set. -/
theorem argStep_useNamed_mono (parameters : List (String × PyVal)) (st : BuildSt)
    (param_info : FunctionParameterInfo) (h : st.useNamed = true) :
    (argStep parameters st param_info).useNamed = true := by
  unfold argStep
  cases hq : lookupArg parameters param_info.name
  · rfl
  · exact h

/-- Once the flag is on, the rest of the loop emits every present
argument as `name => body`, in declared order. -/
theorem foldl_argStep_named (parameters : List (String × PyVal))
    (post : List FunctionParameterInfo) :
    ∀ st : BuildSt, st.useNamed = true →
      (post.foldl (argStep parameters) st).args =
        st.args ++ (post.filter (fun q => (lookupArg parameters q.name).isSome)).map
          (fun q => q.name ++ " => " ++ argBodyOf q) := by
  induction post with
  | nil =>
    intro st h
    simp
  | cons q rest ih =>
    intro st h
    rw [List.foldl_cons]
    cases hq : lookupArg parameters q.name with
    | none =>
      have hstep : argStep parameters st q = { st with useNamed := true } := by
        unfold argStep
        rw [hq]
      rw [hstep, ih _ rfl]
      have hf : (q :: rest).filter (fun p => (lookupArg parameters p.name).isSome) =
          rest.filter (fun p => (lookupArg parameters p.name).isSome) := by
        rw [List.filter_cons]
        simp [hq]
      rw [hf]
    | some v =>
      have hstep : argStep parameters st q =
          { args := st.args ++ [q.name ++ " => " ++ argBodyOf q],
            out := st.out ++ argOutOf q v, useNamed := true } := by
        unfold argStep
        rw [hq, h]
        simp
      rw [hstep, ih _ rfl]
      have hf : (q :: rest).filter (fun p => (lookupArg parameters p.name).isSome) =
          q :: rest.filter (fun p => (lookupArg parameters p.name).isSome) := by
        rw [List.filter_cons]
        simp [hq]
      rw [hf]
      simp

/-- C4: in the statement builder's argument loop, once any declared
parameter is omitted from the provided mapping, every subsequent
provided argument is emitted in `name => value` named syntax, and named
mode never reverts to positional for the rest of the list. -/
theorem sql_stmt_named_args_after_omission (parameters : List (String × PyVal))
    (pre post : List FunctionParameterInfo) (p : FunctionParameterInfo)
    (homit : lookupArg parameters p.name = none) :
    (buildArgs parameters (pre ++ p :: post)).args =
      (buildArgs parameters pre).args ++
        (post.filter (fun q => (lookupArg parameters q.name).isSome)).map
          (fun q => q.name ++ " => " ++ argBodyOf q) := by
  unfold buildArgs
  rw [List.foldl_append, List.foldl_cons]
  have hstep : argStep parameters
      (pre.foldl (argStep parameters) { args := [], out := [], useNamed := false }) p =
      { pre.foldl (argStep parameters) { args := [], out := [], useNamed := false } with
        useNamed := true } := by
    unfold argStep
    rw [homit]
  rw [hstep, foldl_argStep_named parameters post _ rfl]

/-- C4 witness: with declared parameters `a, b, c` and `a` omitted, the
provided later arguments `b` and `c` are both emitted in named
syntax. -/
theorem sql_stmt_named_args_witness :
    (buildArgs [("b", .PInt 2), ("c", .PStr "z")]
      ([] ++ { name := "a", type_name := .INT, type_text := "int" } ::
        [{ name := "b", type_name := .INT, type_text := "int" },
         { name := "c", type_name := .STRING, type_text := "string" }])).args =
      (buildArgs [("b", .PInt 2), ("c", .PStr "z")] []).args ++
        ([{ name := "b", type_name := ColumnTypeName.INT, type_text := "int" },
          { name := "c", type_name := ColumnTypeName.STRING, type_text := "string" }].filter
            (fun q => (lookupArg [("b", .PInt 2), ("c", .PStr "z")] q.name).isSome)).map
          (fun q => q.name ++ " => " ++ argBodyOf q) :=
  sql_stmt_named_args_after_omission [("b", .PInt 2), ("c", .PStr "z")] []
    [{ name := "b", type_name := .INT, type_text := "int" },
     { name := "c", type_name := .STRING, type_text := "string" }]
    { name := "a", type_name := .INT, type_text := "int" } (by rfl)

/-- When every poll stays pending, the loop runs all its iterations,
sleeping `2^attempt` before each poll, and ends on the last poll's
response. -/
theorem pollRetryLoop_all_pending (poll : Nat → StatementResponse)
    (hp : ∀ n, respIsPending (poll n) = true) :
    ∀ (k cnt : Nat) (resp : StatementResponse) (sleeps : List Nat),
      pollRetryLoop poll cnt (k + 1) resp sleeps =
        (poll (cnt + k), sleeps ++ (List.range (k + 1)).map (fun i => 2 ^ (cnt + i))) := by
  intro k
  induction k with
  | zero =>
    intro cnt resp sleeps
    unfold pollRetryLoop
    dsimp only
    rw [hp cnt]
    unfold pollRetryLoop
    simp [List.range_succ]
  | succ n ih =>
    intro cnt resp sleeps
    unfold pollRetryLoop
    dsimp only
    rw [hp cnt]
    simp only [if_pos rfl]
    rw [ih (cnt + 1) (poll cnt) (sleeps ++ [2 ^ cnt])]
    have h1 : cnt + 1 + n = cnt + (n + 1) := by omega
    rw [h1]
    have h2 : (List.range (n + 1 + 1)).map (fun i => (2:Nat) ^ (cnt + i)) =
        2 ^ cnt :: (List.range (n + 1)).map (fun i => 2 ^ (cnt + 1 + i)) := by
      rw [List.range_succ_eq_map, List.map_cons, List.map_map]
      have h3 : ((fun i => (2:Nat) ^ (cnt + i)) ∘ Nat.succ) =
          (fun i => (2:Nat) ^ (cnt + 1 + i)) := by
        funext i
        show (2:Nat) ^ (cnt + (i + 1)) = 2 ^ (cnt + 1 + i)
        rw [show cnt + (i + 1) = cnt + 1 + i from by omega]
      rw [h3]
      simp
    rw [h2]
    simp

set_option maxRecDepth 100000 in
/-- C3: when the initial response is pending with a statement id and
every poll remains pending, the decoder polls exactly 6 times with
sleeps `2^1 .. 2^6` before each poll, and then returns (not raises) an
error result whose text contains `still pending after 6`. -/
theorem pending_never_resolves_spec (scalar pandasAvailable : Bool)
    (poll : Nat → StatementResponse) (response0 : StatementResponse)
    (h0 : respIsPending response0 = true)
    (hid : optStrTruthy response0.statement_id = true)
    (hp : ∀ n, respIsPending (poll n) = true) :
    decodeExecution scalar pandasAvailable poll response0 =
      (ExecOutcome.ok { error := some ("Statement execution is still pending after 6 times." ++
        " Please try increase the wait_timeout argument for executing the function.") },
       [2, 4, 8, 16, 32, 64]) ∧
    strContains ("Statement execution is still pending after 6 times." ++
      " Please try increase the wait_timeout argument for executing the function.")
      "still pending after 6" = true := by
  constructor
  · unfold decodeExecution
    rw [if_pos ⟨h0, hid⟩]
    have hloop := pollRetryLoop_all_pending poll hp 5 1 response0 []
    have h6 : (1:Nat) + 5 = 6 := rfl
    rw [h6] at hloop
    have hrange : (List.range (5 + 1)).map (fun i => (2:Nat) ^ (1 + i)) =
        [2, 4, 8, 16, 32, 64] := by decide
    rw [hrange] at hloop
    rw [hloop]
    dsimp only
    rw [hp 6]
    rw [if_pos rfl]
    rfl
  · decide

/-- A response that is pending with a statement id. -/
def pendingResp : StatementResponse :=
  { status := some { state := some .PENDING, error := none }, statement_id := some "stid",
    manifest := none, result := none }

/-- C3 witness: the theorem applied to a remote that always answers
pending. -/
theorem pending_never_resolves_witness :
    decodeExecution true true (fun _ => pendingResp) pendingResp =
      (ExecOutcome.ok { error := some ("Statement execution is still pending after 6 times." ++
        " Please try increase the wait_timeout argument for executing the function.") },
       [2, 4, 8, 16, 32, 64]) ∧
    strContains ("Statement execution is still pending after 6 times." ++
      " Please try increase the wait_timeout argument for executing the function.")
      "still pending after 6" = true :=
  pending_never_resolves_spec true true (fun _ => pendingResp) pendingResp
    (by rfl) (by rfl) (fun _ => rfl)

/-- A fully successful response for a table-returning function. -/
def succTableResp : StatementResponse :=
  { status := some { state := some .SUCCEEDED, error := none },
    statement_id := some "stid",
    manifest := some
      { truncated := some false,
        schema := some { columns := some [ColumnInfoM.mk (some "col")] } },
    result := some { data_array := some [[some "v"]] } }

/-- C5 counterexample: decoding a fully successful tabular response with
the pandas dependency missing raises an ImportError instead of
returning an `ExecutionResult`. -/
theorem decode_raises_counterexample :
    (decodeExecution false false (fun _ => succTableResp) succTableResp).1 =
      ExecOutcome.raised
        "Could not import pandas python package. Please install it with pip install pandas." := by
  rfl

/-- With pandas available, decoding any response yields a returned
result. -/
theorem decodeResponse_total (scalar : Bool) (response : StatementResponse) :
    ∃ r, decodeResponse scalar true response = ExecOutcome.ok r := by
  unfold decodeResponse
  repeat' split
  all_goals first | exact ⟨_, rfl⟩ | simp_all

/-- C5 (amended): with the pandas dependency available, the decoding
step always returns an `ExecutionResult` and never raises, mapping a
missing status, a non-succeeded state, and a missing manifest, result or
schema to error results; only the missing-pandas tabular path raises. -/
theorem decode_execution_result_spec (scalar : Bool) (poll : Nat → StatementResponse)
    (response : StatementResponse) :
    (∃ r, (decodeExecution scalar true poll response).1 = ExecOutcome.ok r) ∧
    (response.status = none →
      ∃ e, decodeResponse scalar true response = ExecOutcome.ok { error := some e }) ∧
    (∀ status, response.status = some status → status.state ≠ some StatementState.SUCCEEDED →
      ∃ e, decodeResponse scalar true response = ExecOutcome.ok { error := some e }) ∧
    (∀ status, response.status = some status → status.state = some StatementState.SUCCEEDED →
      response.manifest = none →
      ∃ e, decodeResponse scalar true response = ExecOutcome.ok { error := some e }) ∧
    (∀ status manifest, response.status = some status →
      status.state = some StatementState.SUCCEEDED → response.manifest = some manifest →
      response.result = none →
      ∃ e, decodeResponse scalar true response = ExecOutcome.ok { error := some e }) ∧
    (∀ status manifest result, scalar = false → response.status = some status →
      status.state = some StatementState.SUCCEEDED → response.manifest = some manifest →
      response.result = some result → manifest.schema = none →
      ∃ e, decodeResponse scalar true response = ExecOutcome.ok { error := some e }) := by
  refine ⟨?_, ?_, ?_, ?_, ?_, ?_⟩
  · unfold decodeExecution
    dsimp only
    split
    · rcases hl : pollRetryLoop poll 1 6 response [] with ⟨resp2, sleeps⟩
      split
      · exact ⟨_, rfl⟩
      · exact decodeResponse_total scalar resp2
    · exact decodeResponse_total scalar response
  · intro hs
    unfold decodeResponse
    rw [hs]
    exact ⟨_, rfl⟩
  · intro status hs hne
    unfold decodeResponse
    rw [hs]
    dsimp only
    rw [if_pos hne]
    cases herr : status.error
    · exact ⟨_, rfl⟩
    · exact ⟨_, rfl⟩
  · intro status hs hst hman
    unfold decodeResponse
    rw [hs]
    dsimp only
    rw [if_neg (by simp [hst]), hman]
    exact ⟨_, rfl⟩
  · intro status manifest hs hst hman hres
    unfold decodeResponse
    rw [hs]
    dsimp only
    rw [if_neg (by simp [hst]), hman]
    dsimp only
    rw [hres]
    exact ⟨_, rfl⟩
  · intro status manifest result hscalar hs hst hman hres hschema
    subst hscalar
    unfold decodeResponse
    rw [hs]
    dsimp only
    rw [if_neg (by simp [hst]), hman]
    dsimp only
    rw [hres]
    dsimp only
    rw [hschema]
    exact ⟨_, rfl⟩

/-- C5 witness: the amended statement applied to a response with a
missing status, which is mapped to an error result. -/
theorem decode_execution_result_witness :
    ∃ e, decodeResponse true true
      { status := none, statement_id := none, manifest := none, result := none } =
      ExecOutcome.ok { error := some e } :=
  (decode_execution_result_spec true
    (fun _ => { status := none, statement_id := none, manifest := none, result := none })
    { status := none, statement_id := none, manifest := none, result := none }).2.1 rfl

end UCAI
